import Mathlib

/-
  Shallow embedding of src/display/sketch/portfolio_mode.cpp (and its header
  portfolio_mode.h).  The matrix is 8 rows by 13 columns, 104 pixels total;
  MAX_CLUSTERS is 6.  C ints are modelled as Int, uint8_t values as Nat with
  explicit mod 256 at conversion points, unsigned long (millis) arithmetic as
  Nat with explicit mod 2^32.  The global mutable state of the sketch is the
  structure PortfolioState; every source function becomes a state transformer.
  The textual JSON scanning (strchr, strstr, atoi) is the external decoder
  boundary declared in the spec; a RawRecord holds the integers and the string
  that extractInt and extractString deliver for one scanned object, so
  parseClusterData acts on the list of successfully scanned records.
  The Arduino call random(n) is modelled by a caller supplied stream
  rng : Nat with a running position; random(n) at position k is rng k % n
  (0 when n = 0, as in the Arduino source of random).
-/

namespace Sentinel

/-- The Arduino constrain helper: (amt < low) ? low : ((amt > high) ? high : amt). -/
def constrain (x lo hi : Int) : Int := if x < lo then lo else if hi < x then hi else x

/-- C conversion int to uint8_t: reduction mod 2^8. -/
def toUInt8 (n : Int) : Nat := (n % 256).toNat

/-- C conversion int to unsigned long (32 bit): reduction mod 2^32. -/
def toUInt32 (n : Int) : Nat := (n % 4294967296).toNat

/-- Unsigned long subtraction currentTime - lastUpdateTime, i.e. (t - l) mod 2^32. -/
def elapsed32 (t l : Nat) : Nat :=
  (t % 4294967296 + (4294967296 - l % 4294967296)) % 4294967296

/-- Arduino random(n): 0 when n is 0, otherwise a draw reduced mod n. -/
def randN (r n : Nat) : Nat := if n = 0 then 0 else r % n

/-- Exchange the entries of f at positions i and j. -/
def swapFn (f : Nat → Nat) (i j : Nat) : Nat → Nat :=
  fun n => if n = i then f j else if n = j then f i else f n

/-- Write value v into the grid cell at row y, column x. -/
def setGrid (g : Nat → Nat → Nat) (y x v : Nat) : Nat → Nat → Nat :=
  fun y2 x2 => if y2 = y ∧ x2 = x then v else g y2 x2

/-- One scanned JSON object as delivered by extractInt and extractString:
    a missing key has already become 0 (or the empty string). -/
structure RawRecord where
  cluster_id : Int
  pixels : Int
  brightness : Int
  clustering : Int
  speed : Int
  symbol : String
deriving DecidableEq

/-- struct ClusterData of portfolio_mode.h.  brightness is the uint8_t field. -/
structure ClusterData where
  clusterID : Int
  pixels : Int
  brightness : Nat
  clustering : Int
  speed : Int
  symbol : String
deriving DecidableEq

/-- Field processing for one record, lines 84 to 96 of portfolio_mode.cpp:
    the brightness value is cast to uint8_t on assignment and only then
    constrained; pixels, clustering and speed are constrained as ints;
    extractString copies at most 9 characters into symbol[10]. -/
def parseRecord (r : RawRecord) : ClusterData :=
  { clusterID := r.cluster_id
    pixels := constrain r.pixels 0 104
    brightness := (constrain (toUInt8 r.brightness : Int) 80 220).toNat
    clustering := constrain r.clustering 1 10
    speed := constrain r.speed 10 500
    symbol := String.mk (r.symbol.data.take 9) }

/-- parseClusterData: the scan loop stops at MAX_CLUSTERS = 6 records and
    stores the processed fields of each record in order. -/
def parseClusterData (records : List RawRecord) : List ClusterData :=
  (records.take 6).map parseRecord

/-- The global mutable state of portfolio_mode.cpp: the mode flag, the
    cluster slots with their active count, the 8 by 13 assignment grid
    pixelClusterID (row y, column x), the externally owned 104 entry
    ordering pixelIndices, and the per slot timers lastUpdateTime. -/
@[ext]
structure PortfolioState where
  inPortfolioMode : Bool
  numClusters : Nat
  clusters : Nat → ClusterData
  pixelClusterID : Nat → Nat → Nat
  pixelIndices : Nat → Nat
  lastUpdateTime : Nat → Nat

/-- Store a parsed list into the cluster slots: slot i below the parsed
    count receives the parsed record, higher slots keep their old content. -/
def writeClusters (old : Nat → ClusterData) (l : List ClusterData) : Nat → ClusterData :=
  fun i => if h : i < l.length then l.get ⟨i, h⟩ else old i

/-- Inner loop of setPortfolioMode lines 121 to 127: assign count further
    positions of the current ordering to cluster id cid, stopping early when
    pixelIdx reaches TOTAL_PIXELS = 104.  Returns the grid and the new
    pixelIdx. -/
def assignLoop (pix : Nat → Nat) (cid : Nat) :
    Nat → Nat → (Nat → Nat → Nat) → (Nat → Nat → Nat) × Nat
  | pixelIdx, 0, g => (g, pixelIdx)
  | pixelIdx, Nat.succ p, g =>
    if pixelIdx < 104 then
      assignLoop pix cid (pixelIdx + 1) p
        (setGrid g (pix pixelIdx / 13) (pix pixelIdx % 13) cid)
    else (g, pixelIdx)

/-- Outer loop of setPortfolioMode lines 119 to 128 over the parsed clusters.
    The clusterID int is narrowed to uint8_t when stored into the grid. -/
def buildGrid (pix : Nat → Nat) :
    List ClusterData → Nat → (Nat → Nat → Nat) → (Nat → Nat → Nat) × Nat
  | [], pixelIdx, g => (g, pixelIdx)
  | c :: cs, pixelIdx, g =>
    let r := assignLoop pix (toUInt8 c.clusterID) pixelIdx c.pixels.toNat g
    buildGrid pix cs r.2 r.1

/-- setPortfolioMode, lines 104 to 136: parse, bail out inactive on zero
    clusters, otherwise clear the grid, assign pixels sequentially from the
    current ordering, zero the MAX_CLUSTERS timers and set the flag. -/
def setPortfolioMode (input : List RawRecord) (s : PortfolioState) : PortfolioState :=
  let parsed := parseClusterData input
  let s1 := { s with clusters := writeClusters s.clusters parsed
                     numClusters := parsed.length }
  if parsed.length = 0 then
    { s1 with inPortfolioMode := false }
  else
    { s1 with
      pixelClusterID := (buildGrid s.pixelIndices parsed 0 (fun _ _ => 0)).1
      lastUpdateTime := fun i => if i < 6 then 0 else s.lastUpdateTime i
      inPortfolioMode := true }

/-- The eight neighbour offsets (dx, dy) in source order: dy outer from -1
    to 1, dx inner from -1 to 1, skipping (0, 0). -/
def neighborOffsets : List (Int × Int) :=
  [(-1, -1), (0, -1), (1, -1), (-1, 0), (1, 0), (-1, 1), (0, 1), (1, 1)]

/-- The test applied per offset in countClusterNeighbors: neighbour inside
    the 13 by 8 matrix and its grid cell equal to the target id (the uint8_t
    cell is promoted to int for the comparison). -/
def nbSame (g : Nat → Nat → Nat) (x y : Nat) (target : Int) (d : Int × Int) : Bool :=
  decide (0 ≤ (x : Int) + d.1 ∧ (x : Int) + d.1 < 13 ∧
          0 ≤ (y : Int) + d.2 ∧ (y : Int) + d.2 < 8 ∧
          (g ((y : Int) + d.2).toNat ((x : Int) + d.1).toNat : Int) = target)

/-- The test applied per offset in countOtherClusterNeighbors: neighbour in
    bounds, nonzero cell, different from the own id. -/
def nbOther (g : Nat → Nat → Nat) (x y : Nat) (own : Int) (d : Int × Int) : Bool :=
  decide (0 ≤ (x : Int) + d.1 ∧ (x : Int) + d.1 < 13 ∧
          0 ≤ (y : Int) + d.2 ∧ (y : Int) + d.2 < 8 ∧
          ((g ((y : Int) + d.2).toNat ((x : Int) + d.1).toNat : Int) ≠ 0 ∧
           (g ((y : Int) + d.2).toNat ((x : Int) + d.1).toNat : Int) ≠ own))

/-- countClusterNeighbors, lines 139 to 154. -/
def countClusterNeighbors (g : Nat → Nat → Nat) (x y : Nat) (target : Int) : Nat :=
  neighborOffsets.countP (nbSame g x y target)

/-- countOtherClusterNeighbors, lines 157 to 172. -/
def countOtherClusterNeighbors (g : Nat → Nat → Nat) (x y : Nat) (own : Int) : Nat :=
  neighborOffsets.countP (nbOther g x y own)

/-- The score computed at a sampled ordering index, lines 204 to 211:
    position looked up in pixelIndices, x = pos mod 13, y = pos div 13,
    same cluster neighbours minus other cluster neighbours. -/
def scoreAt (g : Nat → Nat → Nat) (cid : Int) (pix : Nat → Nat) (idx : Nat) : Int :=
  (countClusterNeighbors g (pix idx % 13) (pix idx / 13) cid : Int) -
  (countOtherClusterNeighbors g (pix idx % 13) (pix idx / 13) cid : Int)

/-- One selection loop of updatePortfolioPattern (lines 202 to 217 and
    identically lines 223 to 238): iters times, draw an index in the cluster
    range and keep the first draw whose score strictly exceeds the best seen.
    Returns the chosen index, the next rng position and the list of drawn
    indices (the ordering indices the loop reads). -/
def selectLoop (g : Nat → Nat → Nat) (cid : Int) (pix : Nat → Nat)
    (off npix : Nat) (rng : Nat → Nat) :
    Nat → Nat → Nat → Int → Nat × Nat × List Nat
  | k, 0, best, _ => (best, k, [])
  | k, Nat.succ m, best, bestScore =>
    let idx := off + randN (rng k) npix
    let score := scoreAt g cid pix idx
    let r := if bestScore < score then
               selectLoop g cid pix off npix rng (k + 1) m idx score
             else
               selectLoop g cid pix off npix rng (k + 1) m best bestScore
    (r.1, r.2.1, idx :: r.2.2)

/-- A full selection pass: the fallback draw (which reads no array entry)
    followed by the sampling loop started at the sentinel score -100. -/
def selectSample (g : Nat → Nat → Nat) (cid : Int) (pix : Nat → Nat)
    (off npix : Nat) (rng : Nat → Nat) (k iters : Nat) : Nat × Nat × List Nat :=
  selectLoop g cid pix off npix rng (k + 1) iters (off + randN (rng k) npix) (-100)

/-- The body of the per cluster iteration of updatePortfolioPattern, lines
    181 to 260: rate gate, timer write, empty cluster skip, the two selection
    passes and the conditional swap of ordering entries and grid cells.
    Returns the state, the new pixelOffset, the new rng position and the
    list of ordering indices read or written by the cohesion engine.
    pixelOffset is a Nat and advances by pixels.toNat: a parsed cluster
    always holds a count in 0..104, so this matches the int accumulation of
    the source on every state setPortfolioMode can produce. -/
def clusterUpdate (t : Nat) (rng : Nat → Nat) (cIdx off k : Nat)
    (s : PortfolioState) : PortfolioState × Nat × Nat × List Nat :=
  let cluster := s.clusters cIdx
  if elapsed32 t (s.lastUpdateTime cIdx) < toUInt32 cluster.speed then
    (s, off + cluster.pixels.toNat, k, [])
  else
    let s1 := { s with lastUpdateTime := Function.update s.lastUpdateTime cIdx t }
    if cluster.pixels = 0 then (s1, off, k, [])
    else
      let npix := cluster.pixels.toNat
      let p1 := selectSample s.pixelClusterID cluster.clusterID s.pixelIndices
                  off npix rng k cluster.clustering.toNat
      let p2 := selectSample s.pixelClusterID cluster.clusterID s.pixelIndices
                  off npix rng p1.2.1 cluster.clustering.toNat
      let i1 := p1.1
      let i2 := p2.1
      if i1 ≠ i2 then
        let pix2 := swapFn s.pixelIndices i1 i2
        let pos1 := pix2 i1
        let pos2 := pix2 i2
        let g1 := setGrid s.pixelClusterID (pos1 / 13) (pos1 % 13)
                    (s.pixelClusterID (pos2 / 13) (pos2 % 13))
        let g2 := setGrid g1 (pos2 / 13) (pos2 % 13)
                    (s.pixelClusterID (pos1 / 13) (pos1 % 13))
        ({ s1 with pixelIndices := pix2, pixelClusterID := g2 },
         off + npix, p2.2.1, p1.2.2 ++ p2.2.2 ++ [i1, i2])
      else (s1, off + npix, p2.2.1, p1.2.2 ++ p2.2.2)

/-- The cluster loop of updatePortfolioPattern, threading the state, the
    running pixelOffset and the rng position over the given number of
    remaining clusters, and collecting the accessed ordering indices. -/
def updateLoop (t : Nat) (rng : Nat → Nat) :
    Nat → Nat → Nat → Nat → PortfolioState → PortfolioState × List Nat
  | _, 0, _, _, s => (s, [])
  | cIdx, Nat.succ rem, off, k, s =>
    let r := clusterUpdate t rng cIdx off k s
    let r2 := updateLoop t rng (cIdx + 1) rem r.2.1 r.2.2.1 r.1
    (r2.1, r.2.2.2 ++ r2.2)

/-- updatePortfolioPattern, lines 175 to 262, with its outcome split into
    the new state and the accessed ordering indices. -/
def updateFull (t : Nat) (rng : Nat → Nat) (s : PortfolioState) :
    PortfolioState × List Nat :=
  updateLoop t rng 0 s.numClusters 0 0 s

/-- The state after one updatePortfolioPattern call at time t. -/
def updatePortfolioPattern (t : Nat) (rng : Nat → Nat) (s : PortfolioState) :
    PortfolioState :=
  (updateFull t rng s).1

/-- The pixelIndices positions read or written during one call:
    the sampled indices of both selection passes and, when a swap happens,
    the two swap indices. -/
def updateAccesses (t : Nat) (rng : Nat → Nat) (s : PortfolioState) : List Nat :=
  (updateFull t rng s).2

/-- Sum of the pixels fields of a parsed cluster list. -/
def sumPixels (cs : List ClusterData) : Int := (cs.map (fun c => c.pixels)).sum

/-- Logical offset of cluster slot cIdx in the ordering: the sum of the
    pixel counts of the earlier slots. -/
def offsetOf (cs : Nat → ClusterData) (cIdx : Nat) : Nat :=
  ((List.range cIdx).map (fun j => (cs j).pixels.toNat)).sum

/-- Every ordering entry with index below 104 is a position below 104. -/
def pixBounded (pix : Nat → Nat) : Prop := ∀ i, i < 104 → pix i < 104

/-- The ordering is injective on the 104 meaningful indices. -/
def pixInj (pix : Nat → Nat) : Prop :=
  ∀ i j, i < 104 → j < 104 → pix i = pix j → i = j

/-- The active cluster slots hold a nonnegative pixel count and a clusterID
    in the documented range 0 to 5. -/
def goodClusters (s : PortfolioState) : Prop :=
  ∀ c, c < s.numClusters →
    0 ≤ (s.clusters c).pixels ∧ 0 ≤ (s.clusters c).clusterID ∧ (s.clusters c).clusterID ≤ 5

/-- Grid consistency: for every active cluster and every ordering index in
    its logical range, the grid cell of the physical position stored there
    holds the clusterID of that cluster. -/
def gridConsistent (s : PortfolioState) : Prop :=
  ∀ cIdx, cIdx < s.numClusters →
    ∀ i, offsetOf s.clusters cIdx ≤ i →
      i < offsetOf s.clusters cIdx + (s.clusters cIdx).pixels.toNat →
      (s.pixelClusterID (s.pixelIndices i / 13) (s.pixelIndices i % 13) : Int) =
        (s.clusters cIdx).clusterID

/-- The full state invariant carried across update calls. -/
def StateInv (s : PortfolioState) : Prop :=
  pixBounded s.pixelIndices ∧ pixInj s.pixelIndices ∧ goodClusters s ∧
    offsetOf s.clusters s.numClusters ≤ 104 ∧ gridConsistent s

/-- Cluster slot cIdx is due at time t: the rate gate of line 184 does not
    skip it. -/
def dueAt (t : Nat) (s : PortfolioState) (cIdx : Nat) : Prop :=
  ¬ elapsed32 t (s.lastUpdateTime cIdx) < toUInt32 (s.clusters cIdx).speed

/-- The sampled indices of one selection pass as the spec describes them:
    iters draws, the draw at loop step i taken at rng position k + i,
    each placed in the cluster range starting at off. -/
def sampleIndices (rng : Nat → Nat) (k off npix iters : Nat) : List Nat :=
  (List.range iters).map (fun i => off + randN (rng (k + i)) npix)

/-- r is the first element of the list attaining the maximal f value:
    the list splits around r, every element before r scores strictly less,
    and no element anywhere scores more. -/
def IsFirstMax (f : Nat → Int) (l : List Nat) (r : Nat) : Prop :=
  ∃ l1 l2, l = l1 ++ r :: l2 ∧ (∀ y ∈ l1, f y < f r) ∧ (∀ y ∈ l, f y ≤ f r)

/-- The multiset of clusterID values stored in the 104 grid cells. -/
def gridMultiset (g : Nat → Nat → Nat) : Multiset Nat :=
  ((List.range 104).map (fun p => g (p / 13) (p % 13)) : Multiset Nat)

/-- A neutral start state: mode off, empty slots, zero grid, the identity
    ordering on the 104 positions, zero timers. -/
def initState : PortfolioState :=
  { inPortfolioMode := false
    numClusters := 0
    clusters := fun _ =>
      { clusterID := 0, pixels := 0, brightness := 0, clustering := 0, speed := 0, symbol := "" }
    pixelClusterID := fun _ _ => 0
    pixelIndices := fun i => i % 104
    lastUpdateTime := fun _ => 0 }

/-- A record requesting brightness 300, above the uint8_t range. -/
def brightRecord : RawRecord :=
  { cluster_id := 1, pixels := 3, brightness := 300, clustering := 5, speed := 50, symbol := "" }

/-- Two records of 60 pixels each: individually inside the 104 pixel budget,
    together above it. -/
def budgetInput : List RawRecord :=
  [{ cluster_id := 1, pixels := 60, brightness := 180, clustering := 3, speed := 100, symbol := "" },
   { cluster_id := 2, pixels := 60, brightness := 180, clustering := 3, speed := 100, symbol := "" }]

/-- Two records requesting the full 104 pixel capacity each. -/
def overrunInput : List RawRecord :=
  [{ cluster_id := 1, pixels := 104, brightness := 180, clustering := 3, speed := 100, symbol := "" },
   { cluster_id := 2, pixels := 104, brightness := 180, clustering := 3, speed := 100, symbol := "" }]

/- ------------------------------------------------------------------ -/
/- Helper lemmas                                                       -/
/- ------------------------------------------------------------------ -/

/-- The in bounds part of the per offset neighbour test. -/
def inBoundsAt (x y : Nat) (d : Int × Int) : Bool :=
  decide (0 ≤ (x : Int) + d.1 ∧ (x : Int) + d.1 < 13 ∧
          0 ≤ (y : Int) + d.2 ∧ (y : Int) + d.2 < 8)

lemma countClusterNeighbors_le_inBounds (g : Nat → Nat → Nat) (x y : Nat) (tid : Int) :
    countClusterNeighbors g x y tid ≤ neighborOffsets.countP (inBoundsAt x y) := by
  apply List.countP_mono_left
  intro d _ hd
  simp only [nbSame, decide_eq_true_eq] at hd
  simp only [inBoundsAt, decide_eq_true_eq]
  exact ⟨hd.1, hd.2.1, hd.2.2.1, hd.2.2.2.1⟩

lemma countOtherClusterNeighbors_le_inBounds (g : Nat → Nat → Nat) (x y : Nat) (own : Int) :
    countOtherClusterNeighbors g x y own ≤ neighborOffsets.countP (inBoundsAt x y) := by
  apply List.countP_mono_left
  intro d _ hd
  simp only [nbOther, decide_eq_true_eq] at hd
  simp only [inBoundsAt, decide_eq_true_eq]
  exact ⟨hd.1, hd.2.1, hd.2.2.1, hd.2.2.2.1⟩

lemma nbSame_congr (g g2 : Nat → Nat → Nat) (x y : Nat) (tid : Int)
    (h : ∀ a b, a < 8 → b < 13 → g a b = g2 a b) :
    nbSame g x y tid = nbSame g2 x y tid := by
  funext d
  simp only [nbSame, decide_eq_decide]
  constructor
  · rintro ⟨h1, h2, h3, h4, h5⟩
    refine ⟨h1, h2, h3, h4, ?_⟩
    rw [← h ((y : Int) + d.2).toNat ((x : Int) + d.1).toNat (by omega) (by omega)]
    exact h5
  · rintro ⟨h1, h2, h3, h4, h5⟩
    refine ⟨h1, h2, h3, h4, ?_⟩
    rw [h ((y : Int) + d.2).toNat ((x : Int) + d.1).toNat (by omega) (by omega)]
    exact h5

lemma nbOther_congr (g g2 : Nat → Nat → Nat) (x y : Nat) (own : Int)
    (h : ∀ a b, a < 8 → b < 13 → g a b = g2 a b) :
    nbOther g x y own = nbOther g2 x y own := by
  funext d
  simp only [nbOther, decide_eq_decide]
  constructor
  · rintro ⟨h1, h2, h3, h4, h5⟩
    refine ⟨h1, h2, h3, h4, ?_⟩
    rw [← h ((y : Int) + d.2).toNat ((x : Int) + d.1).toNat (by omega) (by omega)]
    exact h5
  · rintro ⟨h1, h2, h3, h4, h5⟩
    refine ⟨h1, h2, h3, h4, ?_⟩
    rw [h ((y : Int) + d.2).toNat ((x : Int) + d.1).toNat (by omega) (by omega)]
    exact h5

/- ------------------------------------------------------------------ -/
/- Claim C10                                                           -/
/- ------------------------------------------------------------------ -/

/-- Claim C10: countClusterNeighbors and countOtherClusterNeighbors count
    only in bounds cells among the 8 surrounding coordinates, never wrapping:
    at a corner the result is at most 3, on an edge at most 5, everywhere at
    most 8, and the counts depend only on in grid cells, so an out of grid
    neighbour contributes to neither count. -/
theorem claim_C10_neighbor_counts (g g2 : Nat → Nat → Nat) (tid own : Int) (x y : Nat)
    (hx : x < 13) (hy : y < 8) :
    (((x = 0 ∨ x = 12) ∧ (y = 0 ∨ y = 7)) →
       countClusterNeighbors g x y tid ≤ 3 ∧ countOtherClusterNeighbors g x y own ≤ 3) ∧
    ((x = 0 ∨ x = 12 ∨ y = 0 ∨ y = 7) →
       countClusterNeighbors g x y tid ≤ 5 ∧ countOtherClusterNeighbors g x y own ≤ 5) ∧
    (countClusterNeighbors g x y tid ≤ 8 ∧ countOtherClusterNeighbors g x y own ≤ 8) ∧
    ((∀ a b, a < 8 → b < 13 → g a b = g2 a b) →
       countClusterNeighbors g x y tid = countClusterNeighbors g2 x y tid ∧
       countOtherClusterNeighbors g x y own = countOtherClusterNeighbors g2 x y own) := by
  refine ⟨?_, ?_, ?_, ?_⟩
  · rintro ⟨hc1, hc2⟩
    have hb : neighborOffsets.countP (inBoundsAt x y) ≤ 3 := by
      rcases hc1 with rfl | rfl <;> rcases hc2 with rfl | rfl <;> decide
    exact ⟨le_trans (countClusterNeighbors_le_inBounds g x y tid) hb,
           le_trans (countOtherClusterNeighbors_le_inBounds g x y own) hb⟩
  · intro he
    have hb : neighborOffsets.countP (inBoundsAt x y) ≤ 5 := by
      rcases he with rfl | rfl | rfl | rfl
      · interval_cases y <;> decide
      · interval_cases y <;> decide
      · interval_cases x <;> decide
      · interval_cases x <;> decide
    exact ⟨le_trans (countClusterNeighbors_le_inBounds g x y tid) hb,
           le_trans (countOtherClusterNeighbors_le_inBounds g x y own) hb⟩
  · constructor
    · unfold countClusterNeighbors
      exact le_trans (List.countP_le_length _) (by decide)
    · unfold countOtherClusterNeighbors
      exact le_trans (List.countP_le_length _) (by decide)
  · intro hloc
    constructor
    · unfold countClusterNeighbors
      rw [nbSame_congr g g2 x y tid hloc]
    · unfold countOtherClusterNeighbors
      rw [nbOther_congr g g2 x y own hloc]

/-- Claim C10 witness at the corner (0, 0) with the all zero grid. -/
theorem claim_C10_witness :
    ((((0 : Nat) = 0 ∨ (0 : Nat) = 12) ∧ ((0 : Nat) = 0 ∨ (0 : Nat) = 7)) →
       countClusterNeighbors (fun _ _ => 0) 0 0 1 ≤ 3 ∧
       countOtherClusterNeighbors (fun _ _ => 0) 0 0 2 ≤ 3) ∧
    (((0 : Nat) = 0 ∨ (0 : Nat) = 12 ∨ (0 : Nat) = 0 ∨ (0 : Nat) = 7) →
       countClusterNeighbors (fun _ _ => 0) 0 0 1 ≤ 5 ∧
       countOtherClusterNeighbors (fun _ _ => 0) 0 0 2 ≤ 5) ∧
    (countClusterNeighbors (fun _ _ => 0) 0 0 1 ≤ 8 ∧
     countOtherClusterNeighbors (fun _ _ => 0) 0 0 2 ≤ 8) ∧
    ((∀ a b, a < 8 → b < 13 → (fun _ _ => (0 : Nat)) a b = (fun _ _ => (0 : Nat)) a b) →
       countClusterNeighbors (fun _ _ => 0) 0 0 1 = countClusterNeighbors (fun _ _ => 0) 0 0 1 ∧
       countOtherClusterNeighbors (fun _ _ => 0) 0 0 2 =
         countOtherClusterNeighbors (fun _ _ => 0) 0 0 2) :=
  claim_C10_neighbor_counts (fun _ _ => 0) (fun _ _ => 0) 1 2 0 0 (by decide) (by decide)

/- ------------------------------------------------------------------ -/
/- Claim C5                                                            -/
/- ------------------------------------------------------------------ -/

/-- Claim C5 counterexample: for the raw brightness 300 the stored value is
    80, not the claimed clamp of the raw value to the interval 80 to 220,
    which is 220: the source casts to uint8_t before constraining, so 300
    becomes 44 and then 80. -/
theorem claim_C5_cex :
    ((parseClusterData [brightRecord]).map (fun c => (c.brightness : Int))) = [80] ∧
    constrain 300 80 220 = 220 ∧ ((80 : Int) ≠ 220) := by decide

/-- Claim C5 amended: the stored brightness of the record at position i is
    the raw value reduced mod 256 and then clamped to the interval 80 to
    220, and therefore always lies in that interval. -/
theorem claim_C5_brightness (rs : List RawRecord) (i : Nat)
    (h : i < (parseClusterData rs).length) :
    (parseClusterData rs)[i]?.map (fun c => (c.brightness : Int)) =
      rs[i]?.map (fun r => max 80 (min 220 (r.brightness % 256))) ∧
    ∀ c ∈ parseClusterData rs, 80 ≤ c.brightness ∧ c.brightness ≤ 220 := by
  constructor
  · have hlen : (parseClusterData rs).length = min 6 rs.length := by
      simp [parseClusterData]
    have hi6 : i < 6 := by omega
    have hir : i < rs.length := by omega
    unfold parseClusterData
    rw [List.getElem?_map, List.getElem?_take_of_lt hi6]
    rw [List.getElem?_eq_getElem hir]
    simp only [Option.map]
    congr 1
    simp only [parseRecord, toUInt8, constrain]
    split_ifs <;> omega
  · intro c hc
    simp only [parseClusterData, List.mem_map] at hc
    obtain ⟨r, _, rfl⟩ := hc
    have h0 : (0 : Int) ≤ r.brightness % 256 := Int.emod_nonneg _ (by norm_num)
    have h1 : r.brightness % 256 < 256 := Int.emod_lt_of_pos _ (by norm_num)
    simp only [parseRecord, toUInt8, constrain]
    constructor
    · split_ifs <;> omega
    · split_ifs <;> omega

/-- Claim C5 witness at the record with raw brightness 300. -/
theorem claim_C5_witness :
    (parseClusterData [brightRecord])[0]?.map (fun c => (c.brightness : Int)) =
      [brightRecord][0]?.map (fun r => max 80 (min 220 (r.brightness % 256))) ∧
    ∀ c ∈ parseClusterData [brightRecord], 80 ≤ c.brightness ∧ c.brightness ≤ 220 :=
  claim_C5_brightness [brightRecord] 0 (by decide)

/- ------------------------------------------------------------------ -/
/- Claim C2                                                            -/
/- ------------------------------------------------------------------ -/

lemma parse_pixels (rs : List RawRecord) :
    ∀ c ∈ parseClusterData rs, 0 ≤ c.pixels ∧ c.pixels ≤ 104 := by
  intro c hc
  simp only [parseClusterData, List.mem_map] at hc
  obtain ⟨r, _, rfl⟩ := hc
  simp only [parseRecord, constrain]
  split_ifs <;> omega

/-- Claim C2 counterexample: two records of 60 pixels each parse to clamped
    pixel counts summing to 120, above the total capacity 104: the source
    clamps each count separately and never the sum. -/
theorem claim_C2_cex :
    sumPixels (parseClusterData budgetInput) = 120 ∧
    ¬ sumPixels (parseClusterData budgetInput) ≤ 104 := by decide

/-- Claim C2 amended: each parsed cluster has its pixels field clamped to
    the interval 0 to 104 individually; at most 6 records are parsed, so the
    sum of the clamped counts is bounded by 624, not by 104.  Pixels beyond
    104 simply receive no grid assignment in setPortfolioMode. -/
theorem claim_C2_pixels (rs : List RawRecord) :
    (∀ c ∈ parseClusterData rs, 0 ≤ c.pixels ∧ c.pixels ≤ 104) ∧
    (parseClusterData rs).length ≤ 6 ∧
    sumPixels (parseClusterData rs) ≤ 624 := by
  have hmem := parse_pixels rs
  have hlen : (parseClusterData rs).length ≤ 6 := by
    simp [parseClusterData]
  refine ⟨hmem, hlen, ?_⟩
  have hb : ∀ x ∈ (parseClusterData rs).map (fun c => c.pixels), x ≤ 104 := by
    intro x hx
    simp only [List.mem_map] at hx
    obtain ⟨c, hc, rfl⟩ := hx
    exact (hmem c hc).2
  have hs := List.sum_le_card_nsmul ((parseClusterData rs).map (fun c => c.pixels)) 104 hb
  rw [nsmul_eq_mul, List.length_map] at hs
  unfold sumPixels
  have hll : ((parseClusterData rs).length : Int) ≤ 6 := by exact_mod_cast hlen
  calc ((parseClusterData rs).map (fun c => c.pixels)).sum
      ≤ ((parseClusterData rs).length : Int) * 104 := hs
    _ ≤ 6 * 104 := by
        apply mul_le_mul_of_nonneg_right hll
        norm_num
    _ = 624 := by norm_num

/-- Claim C2 witness at the two record overrun input. -/
theorem claim_C2_witness :
    (∀ c ∈ parseClusterData budgetInput, 0 ≤ c.pixels ∧ c.pixels ≤ 104) ∧
    (parseClusterData budgetInput).length ≤ 6 ∧
    sumPixels (parseClusterData budgetInput) ≤ 624 :=
  claim_C2_pixels budgetInput

/- ------------------------------------------------------------------ -/
/- Claim C7                                                            -/
/- ------------------------------------------------------------------ -/

/-- Claim C7: when parsing yields zero clusters, setPortfolioMode clears the
    mode flag and leaves the grid, the ordering and the timers untouched,
    and every subsequent updatePortfolioPattern call is a complete no op
    that accesses no ordering entry. -/
theorem claim_C7_empty_config (input : List RawRecord) (s : PortfolioState)
    (h : parseClusterData input = []) :
    (setPortfolioMode input s).inPortfolioMode = false ∧
    (setPortfolioMode input s).pixelClusterID = s.pixelClusterID ∧
    (setPortfolioMode input s).pixelIndices = s.pixelIndices ∧
    (setPortfolioMode input s).lastUpdateTime = s.lastUpdateTime ∧
    ∀ t rng, updatePortfolioPattern t rng (setPortfolioMode input s) = setPortfolioMode input s ∧
             updateAccesses t rng (setPortfolioMode input s) = [] := by
  have hset : setPortfolioMode input s =
      { s with clusters := writeClusters s.clusters []
               numClusters := 0
               inPortfolioMode := false } := by
    unfold setPortfolioMode
    rw [h]
    simp
  rw [hset]
  refine ⟨rfl, rfl, rfl, rfl, ?_⟩
  intro t rng
  constructor
  · unfold updatePortfolioPattern updateFull
    rfl
  · unfold updateAccesses updateFull
    rfl

/-- Claim C7 witness at the empty record list. -/
theorem claim_C7_witness :
    (setPortfolioMode [] initState).inPortfolioMode = false ∧
    (setPortfolioMode [] initState).pixelClusterID = initState.pixelClusterID ∧
    (setPortfolioMode [] initState).pixelIndices = initState.pixelIndices ∧
    (setPortfolioMode [] initState).lastUpdateTime = initState.lastUpdateTime ∧
    ∀ t rng, updatePortfolioPattern t rng (setPortfolioMode [] initState) =
               setPortfolioMode [] initState ∧
             updateAccesses t rng (setPortfolioMode [] initState) = [] :=
  claim_C7_empty_config [] initState rfl

/- ------------------------------------------------------------------ -/
/- Claim C9                                                            -/
/- ------------------------------------------------------------------ -/

/-- Claim C9: applying the same configuration twice in a row without update
    calls in between gives exactly the state of the first application: the
    same grid, the same cluster slots and the same zeroed timers. -/
theorem claim_C9_idempotent (input : List RawRecord) (s : PortfolioState) :
    setPortfolioMode input (setPortfolioMode input s) = setPortfolioMode input s := by
  have hW : ∀ (old : Nat → ClusterData) (l : List ClusterData),
      writeClusters (writeClusters old l) l = writeClusters old l := by
    intro old l
    funext i
    unfold writeClusters
    by_cases hi : i < l.length <;> simp [hi]
  unfold setPortfolioMode
  by_cases hp : (parseClusterData input).length = 0
  · simp only [hp, if_pos rfl]
    ext <;> simp [hW]
  · simp only [hp, if_neg hp]
    ext <;> (try simp [hW]) <;> (try (intro hx; rw [if_pos hx]))

/- ------------------------------------------------------------------ -/
/- Claim C4                                                            -/
/- ------------------------------------------------------------------ -/

lemma scoreAt_ge (g : Nat → Nat → Nat) (cid : Int) (pix : Nat → Nat) (idx : Nat) :
    -8 ≤ scoreAt g cid pix idx := by
  unfold scoreAt
  have h1 : countClusterNeighbors g (pix idx % 13) (pix idx / 13) cid ≤ 8 := by
    unfold countClusterNeighbors
    exact le_trans (List.countP_le_length _) (by decide)
  have h2 : countOtherClusterNeighbors g (pix idx % 13) (pix idx / 13) cid ≤ 8 := by
    unfold countOtherClusterNeighbors
    exact le_trans (List.countP_le_length _) (by decide)
  omega

lemma sampleIndices_succ (rng : Nat → Nat) (k off npix m : Nat) :
    sampleIndices rng k off npix (m + 1) =
      (off + randN (rng k) npix) :: sampleIndices rng (k + 1) off npix m := by
  unfold sampleIndices
  rw [List.range_succ_eq_map]
  simp only [List.map_cons, List.map_map, Nat.add_zero]
  congr 1
  apply List.map_congr_left
  intro a _
  have hka : k + (a + 1) = k + 1 + a := by omega
  simp [Function.comp, Nat.succ_eq_add_one, hka]

lemma isFirstMax_singleton (f : Nat → Int) (b : Nat) : IsFirstMax f [b] b :=
  ⟨[], [], rfl, by simp, by simp⟩

lemma isFirstMax_cons_lt {f : Nat → Int} {l : List Nat} {r b x : Nat}
    (h : IsFirstMax f (x :: l) r) (hb : f b < f x) : IsFirstMax f (b :: x :: l) r := by
  obtain ⟨l1, l2, heq, hlt, hle⟩ := h
  have hxr : f x ≤ f r := hle x (by simp)
  refine ⟨b :: l1, l2, by rw [List.cons_append, ← heq], ?_, ?_⟩
  · intro y hy
    rcases List.mem_cons.mp hy with rfl | hy2
    · omega
    · exact hlt y hy2
  · intro y hy
    rcases List.mem_cons.mp hy with rfl | hy2
    · omega
    · exact hle y hy2

lemma isFirstMax_cons_le {f : Nat → Int} {l : List Nat} {r b x : Nat}
    (h : IsFirstMax f (b :: l) r) (hx : f x ≤ f b) : IsFirstMax f (b :: x :: l) r := by
  obtain ⟨l1, l2, heq, hlt, hle⟩ := h
  cases l1 with
  | nil =>
    simp only [List.nil_append] at heq
    injection heq with h1 h2
    subst h1
    subst h2
    refine ⟨[], x :: l, rfl, by simp, ?_⟩
    intro y hy
    rcases List.mem_cons.mp hy with rfl | hy2
    · exact le_refl _
    rcases List.mem_cons.mp hy2 with rfl | hy3
    · exact hx
    · exact hle y (List.mem_cons_of_mem _ hy3)
  | cons a l1t =>
    simp only [List.cons_append] at heq
    injection heq with h1 h2
    subst h1
    have hbr : f b < f r := hlt b (by simp)
    refine ⟨b :: x :: l1t, l2, ?_, ?_, ?_⟩
    · rw [h2]
      rfl
    · intro y hy
      rcases List.mem_cons.mp hy with rfl | hy2
      · exact hbr
      rcases List.mem_cons.mp hy2 with rfl | hy3
      · omega
      · exact hlt y (List.mem_cons_of_mem _ hy3)
    · intro y hy
      rcases List.mem_cons.mp hy with rfl | hy2
      · exact le_of_lt hbr
      rcases List.mem_cons.mp hy2 with rfl | hy3
      · omega
      · exact hle y (List.mem_cons_of_mem _ hy3)

lemma selectLoop_spec (g : Nat → Nat → Nat) (cid : Int) (pix : Nat → Nat)
    (off npix : Nat) (rng : Nat → Nat) :
    ∀ m k best,
      (selectLoop g cid pix off npix rng k m best (scoreAt g cid pix best)).2.1 = k + m ∧
      (selectLoop g cid pix off npix rng k m best (scoreAt g cid pix best)).2.2 =
        sampleIndices rng k off npix m ∧
      IsFirstMax (scoreAt g cid pix) (best :: sampleIndices rng k off npix m)
        (selectLoop g cid pix off npix rng k m best (scoreAt g cid pix best)).1 := by
  intro m
  induction m with
  | zero =>
    intro k best
    refine ⟨rfl, rfl, ?_⟩
    simp only [sampleIndices, List.range_zero, List.map_nil]
    exact isFirstMax_singleton _ best
  | succ m ih =>
    intro k best
    rw [sampleIndices_succ]
    simp only [selectLoop]
    by_cases hlt : scoreAt g cid pix best < scoreAt g cid pix (off + randN (rng k) npix)
    · rw [if_pos hlt]
      obtain ⟨ih1, ih2, ih3⟩ := ih (k + 1) (off + randN (rng k) npix)
      refine ⟨by rw [ih1]; omega, by rw [ih2], ?_⟩
      exact isFirstMax_cons_lt (ih2 ▸ ih3) hlt
    · rw [if_neg hlt]
      obtain ⟨ih1, ih2, ih3⟩ := ih (k + 1) best
      refine ⟨by rw [ih1]; omega, by rw [ih2], ?_⟩
      exact isFirstMax_cons_le (ih2 ▸ ih3) (by omega)

/-- Claim C4: a selection pass draws iters = clusteringStrength indices with
    replacement from the cluster range, returns the first drawn index whose
    score sameClusterNeighborCount minus otherClusterNeighborCount attains
    the maximum over the draws (both passes use this same maximizing loop),
    every score is at least -8, above the -100 sentinel, so with at least
    one draw the pre loop fallback index is never the result unless it
    coincides with such a maximizing draw: the returned index is always one
    of the drawn indices. -/
theorem claim_C4_selection (g : Nat → Nat → Nat) (cid : Int) (pix : Nat → Nat)
    (off npix : Nat) (rng : Nat → Nat) (k iters : Nat)
    (hn : 0 < npix) (hi : 0 < iters) :
    IsFirstMax (scoreAt g cid pix) (sampleIndices rng (k + 1) off npix iters)
      (selectSample g cid pix off npix rng k iters).1 ∧
    (selectSample g cid pix off npix rng k iters).2.2 =
      sampleIndices rng (k + 1) off npix iters ∧
    (sampleIndices rng (k + 1) off npix iters).length = iters ∧
    (∀ x ∈ sampleIndices rng (k + 1) off npix iters, off ≤ x ∧ x < off + npix) ∧
    (∀ idx, -8 ≤ scoreAt g cid pix idx) := by
  obtain ⟨m, rfl⟩ : ∃ m, iters = m + 1 := ⟨iters - 1, by omega⟩
  have hlen : (sampleIndices rng (k + 1) off npix (m + 1)).length = m + 1 := by
    simp [sampleIndices]
  have hrange : ∀ x ∈ sampleIndices rng (k + 1) off npix (m + 1),
      off ≤ x ∧ x < off + npix := by
    intro x hx
    simp only [sampleIndices, List.mem_map, List.mem_range] at hx
    obtain ⟨i, _, rfl⟩ := hx
    have hm : randN (rng (k + 1 + i)) npix < npix := by
      unfold randN
      rw [if_neg (by omega)]
      exact Nat.mod_lt _ hn
    omega
  have hfb := scoreAt_ge g cid pix (off + randN (rng (k + 1)) npix)
  obtain ⟨h1, h2, h3⟩ := selectLoop_spec g cid pix off npix rng m (k + 1 + 1)
      (off + randN (rng (k + 1)) npix)
  refine ⟨?_, ?_, hlen, hrange, scoreAt_ge g cid pix⟩
  · unfold selectSample
    simp only [selectLoop]
    rw [if_pos (by omega :
      (-100 : Int) < scoreAt g cid pix (off + randN (rng (k + 1)) npix))]
    rw [sampleIndices_succ]
    exact h3
  · unfold selectSample
    simp only [selectLoop]
    rw [if_pos (by omega :
      (-100 : Int) < scoreAt g cid pix (off + randN (rng (k + 1)) npix))]
    rw [sampleIndices_succ]
    simp only [List.cons.injEq]
    exact ⟨trivial, h2⟩

/-- Claim C4 witness at a concrete grid, ordering and rng stream. -/
theorem claim_C4_witness :
    IsFirstMax (scoreAt (fun _ _ => 0) 1 (fun i => i % 104))
      (sampleIndices (fun j => j) 1 0 3 2)
      (selectSample (fun _ _ => 0) 1 (fun i => i % 104) 0 3 (fun j => j) 0 2).1 ∧
    (selectSample (fun _ _ => 0) 1 (fun i => i % 104) 0 3 (fun j => j) 0 2).2.2 =
      sampleIndices (fun j => j) 1 0 3 2 ∧
    (sampleIndices (fun j => j) 1 0 3 2).length = 2 ∧
    (∀ x ∈ sampleIndices (fun j => j) 1 0 3 2, 0 ≤ x ∧ x < 0 + 3) ∧
    (∀ idx, -8 ≤ scoreAt (fun _ _ => 0) 1 (fun i => i % 104) idx) :=
  claim_C4_selection (fun _ _ => 0) 1 (fun i => i % 104) 0 3 (fun j => j) 0 2
    (by decide) (by decide)

/- ------------------------------------------------------------------ -/
/- Claim C1                                                            -/
/- ------------------------------------------------------------------ -/

/-- Claim C1 fails on the code: setPortfolioMode accepts two records of 104
    pixels each (each count is clamped separately, the sum never), and the
    next updatePortfolioPattern call computes pixelOffset 104 for the second
    cluster, so its sampled ordering indices reach position 104, outside the
    104 entry array: here, with the all zero rng stream at time 1000, the
    index 104 is among the accessed ordering positions. -/
theorem claim_C1_overrun_access :
    104 ∈ updateAccesses 1000 (fun _ => 0) (setPortfolioMode overrunInput initState) ∧
    ¬ 104 < 104 := by decide

/- ------------------------------------------------------------------ -/
/- Claim C8                                                            -/
/- ------------------------------------------------------------------ -/

/-- A transposition of two ordering positions. -/
def swapNat (p1 p2 : Nat) : Nat → Nat :=
  fun n => if n = p1 then p2 else if n = p2 then p1 else n

lemma cell_eq_iff (p q : Nat) : (p / 13 = q / 13 ∧ p % 13 = q % 13) ↔ p = q := by
  omega

lemma swapNat_involutive (p1 p2 : Nat) (n : Nat) :
    swapNat p1 p2 (swapNat p1 p2 n) = n := by
  unfold swapNat
  split_ifs <;> omega

lemma swapNat_injective (p1 p2 : Nat) : Function.Injective (swapNat p1 p2) :=
  Function.LeftInverse.injective (swapNat_involutive p1 p2)

lemma swapNat_lt (p1 p2 n : Nat) (h1 : p1 < 104) (h2 : p2 < 104) (hn : n < 104) :
    swapNat p1 p2 n < 104 := by
  unfold swapNat
  split_ifs <;> omega

lemma gridSwap_cells (g : Nat → Nat → Nat) (p1 p2 q : Nat) :
    setGrid (setGrid g (p1 / 13) (p1 % 13) (g (p2 / 13) (p2 % 13)))
        (p2 / 13) (p2 % 13) (g (p1 / 13) (p1 % 13)) (q / 13) (q % 13) =
      g (swapNat p1 p2 q / 13) (swapNat p1 p2 q % 13) := by
  unfold setGrid swapNat
  simp only [cell_eq_iff]
  by_cases hq1 : q = p1
  · subst hq1
    by_cases hq2 : q = p2
    · subst hq2
      simp
    · simp [hq2]
  · by_cases hq2 : q = p2
    · subst hq2
      simp [hq1]
    · simp [hq1, hq2]

lemma range_map_swapNat (p1 p2 : Nat) (h1 : p1 < 104) (h2 : p2 < 104) :
    (Finset.range 104).map ⟨swapNat p1 p2, swapNat_injective p1 p2⟩ =
      Finset.range 104 := by
  apply Finset.ext
  intro a
  simp only [Finset.mem_map, Finset.mem_range, Function.Embedding.coeFn_mk]
  constructor
  · rintro ⟨b, hb, rfl⟩
    exact swapNat_lt p1 p2 b h1 h2 hb
  · intro ha
    exact ⟨swapNat p1 p2 a, swapNat_lt p1 p2 a h1 h2 ha, swapNat_involutive p1 p2 a⟩

lemma gridMultiset_swap (g : Nat → Nat → Nat) (p1 p2 : Nat)
    (h1 : p1 < 104) (h2 : p2 < 104) :
    gridMultiset (setGrid (setGrid g (p1 / 13) (p1 % 13) (g (p2 / 13) (p2 % 13)))
        (p2 / 13) (p2 % 13) (g (p1 / 13) (p1 % 13))) = gridMultiset g := by
  unfold gridMultiset
  have hpt : (List.range 104).map (fun p =>
      setGrid (setGrid g (p1 / 13) (p1 % 13) (g (p2 / 13) (p2 % 13)))
        (p2 / 13) (p2 % 13) (g (p1 / 13) (p1 % 13)) (p / 13) (p % 13)) =
      (List.range 104).map (fun p => g (swapNat p1 p2 p / 13) (swapNat p1 p2 p % 13)) := by
    apply List.map_congr_left
    intro a _
    exact gridSwap_cells g p1 p2 a
  rw [hpt]
  have hcomp : (List.range 104).map (fun p => g (swapNat p1 p2 p / 13) (swapNat p1 p2 p % 13)) =
      ((List.range 104).map (swapNat p1 p2)).map (fun p => g (p / 13) (p % 13)) := by
    rw [List.map_map]
    rfl
  rw [hcomp]
  have hmul : (((List.range 104).map (swapNat p1 p2) : List Nat) : Multiset Nat) =
      ((List.range 104 : List Nat) : Multiset Nat) := by
    rw [← Multiset.map_coe, Multiset.coe_range, ← Finset.range_val]
    have hmv := Finset.map_val ⟨swapNat p1 p2, swapNat_injective p1 p2⟩ (Finset.range 104)
    simp only [Function.Embedding.coeFn_mk] at hmv
    rw [← hmv, range_map_swapNat p1 p2 h1 h2, Finset.range_val]
  calc (((List.range 104).map (swapNat p1 p2)).map (fun p => g (p / 13) (p % 13)) : Multiset Nat)
      = Multiset.map (fun p => g (p / 13) (p % 13))
          (((List.range 104).map (swapNat p1 p2) : List Nat) : Multiset Nat) := by
        rw [Multiset.map_coe]
    _ = Multiset.map (fun p => g (p / 13) (p % 13))
          ((List.range 104 : List Nat) : Multiset Nat) := by rw [hmul]
    _ = (((List.range 104).map (fun p => g (p / 13) (p % 13)) : List Nat) : Multiset Nat) := by
        rw [Multiset.map_coe]

lemma swapFn_left (f : Nat → Nat) (i j : Nat) : swapFn f i j i = f j := by
  unfold swapFn
  simp

lemma swapFn_right (f : Nat → Nat) (i j : Nat) (h : i ≠ j) : swapFn f i j j = f i := by
  unfold swapFn
  rw [if_neg (Ne.symm h), if_pos rfl]

lemma swapFn_bounded (f : Nat → Nat) (i j : Nat) (h : ∀ n, f n < 104) :
    ∀ n, swapFn f i j n < 104 := by
  intro n
  unfold swapFn
  split_ifs <;> apply h

lemma clusterUpdate_grid_inv (t : Nat) (rng : Nat → Nat) (cIdx off k : Nat)
    (s : PortfolioState) (h : ∀ i, s.pixelIndices i < 104) :
    gridMultiset (clusterUpdate t rng cIdx off k s).1.pixelClusterID =
      gridMultiset s.pixelClusterID ∧
    (∀ i, (clusterUpdate t rng cIdx off k s).1.pixelIndices i < 104) ∧
    (clusterUpdate t rng cIdx off k s).1.numClusters = s.numClusters := by
  unfold clusterUpdate
  dsimp only
  split_ifs with hgate hz hsw
  · exact ⟨rfl, h, rfl⟩
  · exact ⟨rfl, h, rfl⟩
  · refine ⟨?_, ?_, rfl⟩
    · simp only [swapFn_left, swapFn_right _ _ _ hsw]
      exact gridMultiset_swap s.pixelClusterID _ _ (h _) (h _)
    · exact swapFn_bounded s.pixelIndices _ _ h
  · exact ⟨rfl, h, rfl⟩

lemma updateLoop_grid_inv (t : Nat) (rng : Nat → Nat) :
    ∀ rem cIdx off k s, (∀ i, s.pixelIndices i < 104) →
      gridMultiset (updateLoop t rng cIdx rem off k s).1.pixelClusterID =
        gridMultiset s.pixelClusterID ∧
      (∀ i, (updateLoop t rng cIdx rem off k s).1.pixelIndices i < 104) := by
  intro rem
  induction rem with
  | zero =>
    intro cIdx off k s h
    exact ⟨rfl, h⟩
  | succ rem ih =>
    intro cIdx off k s h
    simp only [updateLoop]
    obtain ⟨h1, h2, _⟩ := clusterUpdate_grid_inv t rng cIdx off k s h
    obtain ⟨ih1, ih2⟩ := ih (cIdx + 1) (clusterUpdate t rng cIdx off k s).2.1
      (clusterUpdate t rng cIdx off k s).2.2.1 (clusterUpdate t rng cIdx off k s).1 h2
    exact ⟨ih1.trans h1, ih2⟩

/-- Claim C8: one updatePortfolioPattern call leaves the multiset of
    clusterID values over the 104 grid cells unchanged (each swap only
    exchanges two grid cells), so the number of cells assigned to every
    cluster is invariant across updates.  The hypothesis states that every
    ordering entry is a valid physical position below 104. -/
theorem claim_C8_grid_multiset (t : Nat) (rng : Nat → Nat) (s : PortfolioState)
    (h : ∀ i, s.pixelIndices i < 104) :
    gridMultiset (updatePortfolioPattern t rng s).pixelClusterID =
      gridMultiset s.pixelClusterID := by
  unfold updatePortfolioPattern updateFull
  exact (updateLoop_grid_inv t rng s.numClusters 0 0 0 s h).1

/-- Claim C8 witness at the neutral start state. -/
theorem claim_C8_witness :
    gridMultiset (updatePortfolioPattern 5 (fun _ => 0) initState).pixelClusterID =
      gridMultiset initState.pixelClusterID :=
  claim_C8_grid_multiset 5 (fun _ => 0) initState
    (by
      intro i
      show i % 104 < 104
      omega)

/- ------------------------------------------------------------------ -/
/- Shared machinery for claims C3 and C6                               -/
/- ------------------------------------------------------------------ -/

lemma offsetOf_succ (cs : Nat → ClusterData) (n : Nat) :
    offsetOf cs (n + 1) = offsetOf cs n + (cs n).pixels.toNat := by
  unfold offsetOf
  rw [List.range_succ, List.map_append, List.sum_append]
  simp

lemma offsetOf_mono (cs : Nat → ClusterData) {m n : Nat} (h : m ≤ n) :
    offsetOf cs m ≤ offsetOf cs n := by
  induction n with
  | zero =>
    have hm : m = 0 := by omega
    simp [hm]
  | succ n ih =>
    by_cases hm : m ≤ n
    · exact le_trans (ih hm) (by rw [offsetOf_succ]; omega)
    · have hm2 : m = n + 1 := by omega
      simp [hm2]

lemma randN_lt {npix : Nat} (r : Nat) (hn : 0 < npix) : randN r npix < npix := by
  unfold randN
  rw [if_neg (by omega)]
  exact Nat.mod_lt _ hn

lemma selectLoop_mem (g : Nat → Nat → Nat) (cid : Int) (pix : Nat → Nat)
    (off npix : Nat) (rng : Nat → Nat) (hn : 0 < npix) :
    ∀ m k best bs, off ≤ best → best < off + npix →
      off ≤ (selectLoop g cid pix off npix rng k m best bs).1 ∧
      (selectLoop g cid pix off npix rng k m best bs).1 < off + npix := by
  intro m
  induction m with
  | zero =>
    intro k best bs h1 h2
    exact ⟨h1, h2⟩
  | succ m ih =>
    intro k best bs h1 h2
    simp only [selectLoop]
    have hr := randN_lt (rng k) hn
    by_cases hc : bs < scoreAt g cid pix (off + randN (rng k) npix)
    · rw [if_pos hc]
      exact ih (k + 1) _ _ (by omega) (by omega)
    · rw [if_neg hc]
      exact ih (k + 1) best bs h1 h2

lemma selectSample_mem (g : Nat → Nat → Nat) (cid : Int) (pix : Nat → Nat)
    (off npix : Nat) (rng : Nat → Nat) (k iters : Nat) (hn : 0 < npix) :
    off ≤ (selectSample g cid pix off npix rng k iters).1 ∧
    (selectSample g cid pix off npix rng k iters).1 < off + npix := by
  unfold selectSample
  have hr := randN_lt (rng k) hn
  exact selectLoop_mem g cid pix off npix rng hn iters (k + 1) _ _ (by omega) (by omega)

lemma offsetOf_writeClusters (old : Nat → ClusterData) (l : List ClusterData) :
    ∀ n, n ≤ l.length →
      offsetOf (writeClusters old l) n = ((l.take n).map (fun c => c.pixels.toNat)).sum := by
  intro n
  induction n with
  | zero => simp [offsetOf]
  | succ n ih =>
    intro hn
    rw [offsetOf_succ, ih (by omega)]
    have hget : writeClusters old l n = l.get ⟨n, by omega⟩ := by
      unfold writeClusters
      rw [dif_pos (by omega : n < l.length)]
    rw [hget]
    have htake : (l.take (n + 1)).map (fun c => c.pixels.toNat) =
        (l.take n).map (fun c => c.pixels.toNat) ++ [l[n].pixels.toNat] := by
      rw [List.take_succ, List.getElem?_eq_getElem (by omega : n < l.length),
        List.map_append]
      rfl
    rw [htake, List.sum_append]
    simp [List.get_eq_getElem]

lemma range_disjoint (cs : Nat → ClusterData) {c1 c2 i : Nat} (h : c1 < c2)
    (h1 : offsetOf cs c1 ≤ i ∧ i < offsetOf cs (c1 + 1))
    (h2 : offsetOf cs c2 ≤ i ∧ i < offsetOf cs (c2 + 1)) : False := by
  have := offsetOf_mono cs (show c1 + 1 ≤ c2 by omega)
  omega

lemma setGrid_self (g : Nat → Nat → Nat) (y x : Nat) : setGrid g y x (g y x) = g := by
  funext y2 x2
  unfold setGrid
  split_ifs with h
  · rw [h.1, h.2]
  · rfl

/-- Total pixel count of a parsed cluster list, as a Nat. -/
def sumPixN (cs : List ClusterData) : Nat := (cs.map (fun c => c.pixels.toNat)).sum

lemma sumPixN_cons (c : ClusterData) (cs : List ClusterData) :
    sumPixN (c :: cs) = c.pixels.toNat + sumPixN cs := by
  simp [sumPixN]

lemma sumPixN_append (a b : List ClusterData) :
    sumPixN (a ++ b) = sumPixN a + sumPixN b := by
  simp [sumPixN]

lemma sumPixN_take_le (l : List ClusterData) (n : Nat) :
    sumPixN (l.take n) ≤ sumPixN l := by
  conv_rhs => rw [← List.take_append_drop n l]
  rw [sumPixN_append]
  omega

lemma assignLoop_snd (pix : Nat → Nat) (cid : Nat) :
    ∀ count pixelIdx (g : Nat → Nat → Nat), pixelIdx + count ≤ 104 →
      (assignLoop pix cid pixelIdx count g).2 = pixelIdx + count := by
  intro count
  induction count with
  | zero =>
    intro pixelIdx g _
    rfl
  | succ c ih =>
    intro pixelIdx g h
    simp only [assignLoop]
    rw [if_pos (by omega : pixelIdx < 104)]
    rw [ih (pixelIdx + 1) _ (by omega)]
    omega

lemma assignLoop_frame (pix : Nat → Nat) (cid : Nat) :
    ∀ count pixelIdx (g : Nat → Nat → Nat) y x,
      (∀ j, pixelIdx ≤ j → j < pixelIdx + count → j < 104 →
        ¬ (pix j / 13 = y ∧ pix j % 13 = x)) →
      (assignLoop pix cid pixelIdx count g).1 y x = g y x := by
  intro count
  induction count with
  | zero =>
    intro pixelIdx g y x _
    rfl
  | succ c ih =>
    intro pixelIdx g y x h
    simp only [assignLoop]
    by_cases hp : pixelIdx < 104
    · rw [if_pos hp]
      rw [ih (pixelIdx + 1) _ y x (fun j h1 h2 h3 => h j (by omega) (by omega) h3)]
      unfold setGrid
      rw [if_neg]
      intro hc
      exact h pixelIdx le_rfl (by omega) hp ⟨hc.1.symm, hc.2.symm⟩
    · rw [if_neg hp]

lemma assignLoop_write (pix : Nat → Nat) (cid : Nat) :
    ∀ count pixelIdx (g : Nat → Nat → Nat) i,
      pixelIdx ≤ i → i < pixelIdx + count → i < 104 →
      (∀ j, i < j → j < pixelIdx + count → j < 104 → pix j ≠ pix i) →
      (assignLoop pix cid pixelIdx count g).1 (pix i / 13) (pix i % 13) = cid := by
  intro count
  induction count with
  | zero =>
    intro pixelIdx g i h1 h2 _ _
    exfalso
    omega
  | succ c ih =>
    intro pixelIdx g i h1 h2 h3 h4
    simp only [assignLoop]
    rw [if_pos (by omega : pixelIdx < 104)]
    by_cases hi : i = pixelIdx
    · subst hi
      have hframe : ∀ j, i + 1 ≤ j → j < i + 1 + c → j < 104 →
          ¬ (pix j / 13 = pix i / 13 ∧ pix j % 13 = pix i % 13) := by
        intro j hj1 hj2 hj3 hc
        exact h4 j (by omega) (by omega) hj3 ((cell_eq_iff (pix j) (pix i)).mp hc)
      rw [assignLoop_frame pix cid c (i + 1) _ _ _ hframe]
      unfold setGrid
      rw [if_pos ⟨rfl, rfl⟩]
    · exact ih (pixelIdx + 1) _ i (by omega) (by omega) h3
        (fun j a b c2 => h4 j a (by omega) c2)

lemma buildGrid_snd (pix : Nat → Nat) :
    ∀ (cs : List ClusterData) pixelIdx (g : Nat → Nat → Nat),
      pixelIdx + sumPixN cs ≤ 104 →
      (buildGrid pix cs pixelIdx g).2 = pixelIdx + sumPixN cs := by
  intro cs
  induction cs with
  | nil =>
    intro pixelIdx g _
    simp [buildGrid, sumPixN]
  | cons hd tl ih =>
    intro pixelIdx g h
    rw [sumPixN_cons] at h
    simp only [buildGrid]
    rw [assignLoop_snd pix _ _ _ _ (by omega)]
    rw [ih _ _ (by omega)]
    rw [sumPixN_cons]
    omega

lemma buildGrid_frame (pix : Nat → Nat) :
    ∀ (cs : List ClusterData) pixelIdx (g : Nat → Nat → Nat) y x,
      pixelIdx + sumPixN cs ≤ 104 →
      (∀ j, pixelIdx ≤ j → j < pixelIdx + sumPixN cs →
        ¬ (pix j / 13 = y ∧ pix j % 13 = x)) →
      (buildGrid pix cs pixelIdx g).1 y x = g y x := by
  intro cs
  induction cs with
  | nil =>
    intro pixelIdx g y x _ _
    rfl
  | cons hd tl ih =>
    intro pixelIdx g y x hcap h
    have hcap2 : pixelIdx + (hd.pixels.toNat + sumPixN tl) ≤ 104 := by
      rw [sumPixN_cons] at hcap
      omega
    have hin : ∀ j, pixelIdx ≤ j → j < pixelIdx + (hd.pixels.toNat + sumPixN tl) →
        ¬ (pix j / 13 = y ∧ pix j % 13 = x) := by
      intro j h1 h2
      exact h j h1 (by rw [sumPixN_cons]; omega)
    simp only [buildGrid]
    rw [assignLoop_snd pix _ _ _ _ (by omega)]
    rw [ih (pixelIdx + hd.pixels.toNat) _ y x (by omega)
      (fun j h1 h2 => hin j (by omega) (by omega))]
    exact assignLoop_frame pix _ hd.pixels.toNat pixelIdx g y x
      (fun j h1 h2 h3 => hin j h1 (by omega))

lemma buildGrid_write (pix : Nat → Nat) (hinj : pixInj pix) :
    ∀ (cs : List ClusterData) c pixelIdx (g : Nat → Nat → Nat) i (hc : c < cs.length),
      pixelIdx + sumPixN cs ≤ 104 →
      pixelIdx + sumPixN (cs.take c) ≤ i →
      i < pixelIdx + sumPixN (cs.take (c + 1)) →
      (buildGrid pix cs pixelIdx g).1 (pix i / 13) (pix i % 13) =
        toUInt8 (cs.get ⟨c, hc⟩).clusterID := by
  intro cs
  induction cs with
  | nil =>
    intro c pixelIdx g i hc
    exact absurd hc (by simp)
  | cons hd tl ih =>
    intro c pixelIdx g i hc hcap hlo hhi
    have hcap2 : pixelIdx + (hd.pixels.toNat + sumPixN tl) ≤ 104 := by
      rw [sumPixN_cons] at hcap
      omega
    simp only [buildGrid]
    rw [assignLoop_snd pix _ _ _ _ (by omega)]
    cases c with
    | zero =>
      have hhi2 : i < pixelIdx + hd.pixels.toNat := by
        rw [List.take_succ_cons, List.take_zero, sumPixN_cons] at hhi
        simpa [sumPixN] using hhi
      have hlo2 : pixelIdx ≤ i := by
        simpa [sumPixN] using hlo
      have hi104 : i < 104 := by omega
      have hframe : ∀ j, pixelIdx + hd.pixels.toNat ≤ j →
          j < pixelIdx + hd.pixels.toNat + sumPixN tl →
          ¬ (pix j / 13 = pix i / 13 ∧ pix j % 13 = pix i % 13) := by
        intro j h1 h2 hcell
        have hj104 : j < 104 := by omega
        have : j = i := hinj j i hj104 hi104 ((cell_eq_iff (pix j) (pix i)).mp hcell)
        omega
      rw [buildGrid_frame pix tl _ _ _ _ (by omega) hframe]
      exact assignLoop_write pix _ hd.pixels.toNat pixelIdx g i hlo2 hhi2 hi104
        (fun j ha hb hc2 heq => by
          have : j = i := hinj j i hc2 hi104 heq
          omega)
    | succ c2 =>
      have hlo2 : pixelIdx + hd.pixels.toNat + sumPixN (tl.take c2) ≤ i := by
        rw [List.take_succ_cons, sumPixN_cons] at hlo
        omega
      have hhi2 : i < pixelIdx + hd.pixels.toNat + sumPixN (tl.take (c2 + 1)) := by
        rw [List.take_succ_cons, sumPixN_cons] at hhi
        omega
      have hc2 : c2 < tl.length := by
        simpa using hc
      rw [show ((hd :: tl).get ⟨c2 + 1, hc⟩) = tl.get ⟨c2, hc2⟩ from rfl]
      exact ih c2 (pixelIdx + hd.pixels.toNat) _ i hc2 (by omega)
        (by omega) (by omega)

lemma sumPixN_take_succ (l : List ClusterData) (c : Nat) (hc : c < l.length) :
    sumPixN (l.take (c + 1)) = sumPixN (l.take c) + (l.get ⟨c, hc⟩).pixels.toNat := by
  unfold sumPixN
  have htake : (l.take (c + 1)).map (fun x => x.pixels.toNat) =
      (l.take c).map (fun x => x.pixels.toNat) ++ [l[c].pixels.toNat] := by
    rw [List.take_succ, List.getElem?_eq_getElem hc, List.map_append]
    rfl
  rw [htake, List.sum_append]
  simp [List.get_eq_getElem]

lemma writeClusters_get (old : Nat → ClusterData) (l : List ClusterData) (c : Nat)
    (hc : c < l.length) : writeClusters old l c = l.get ⟨c, hc⟩ := by
  unfold writeClusters
  rw [dif_pos hc]

lemma setPortfolioMode_StateInv (input : List RawRecord) (s : PortfolioState)
    (hb : pixBounded s.pixelIndices) (hinj : pixInj s.pixelIndices)
    (hids : ∀ c ∈ parseClusterData input, 0 ≤ c.clusterID ∧ c.clusterID ≤ 5)
    (hsum : sumPixN (parseClusterData input) ≤ 104)
    (hne : parseClusterData input ≠ []) :
    StateInv (setPortfolioMode input s) := by
  have hlen : ¬ (parseClusterData input).length = 0 := by
    intro h
    exact hne (List.length_eq_zero.mp h)
  unfold setPortfolioMode
  dsimp only
  rw [if_neg hlen]
  have hoffW : ∀ n, n ≤ (parseClusterData input).length →
      offsetOf (writeClusters s.clusters (parseClusterData input)) n =
        sumPixN ((parseClusterData input).take n) :=
    fun n hn => offsetOf_writeClusters s.clusters (parseClusterData input) n hn
  refine ⟨hb, hinj, ?_, ?_, ?_⟩
  · intro c hc
    dsimp only at hc ⊢
    rw [writeClusters_get s.clusters (parseClusterData input) c hc]
    have hmem := List.get_mem (parseClusterData input) c hc
    exact ⟨(parse_pixels input _ hmem).1, (hids _ hmem).1, (hids _ hmem).2⟩
  · dsimp only
    rw [hoffW _ le_rfl, List.take_length]
    exact hsum
  · intro cIdx hc i hlo hhi
    dsimp only at hc hlo hhi ⊢
    rw [writeClusters_get s.clusters (parseClusterData input) cIdx hc] at hhi ⊢
    rw [hoffW cIdx (by omega)] at hlo hhi
    have hmem := List.get_mem (parseClusterData input) cIdx hc
    have hid := hids _ hmem
    have hw := buildGrid_write s.pixelIndices hinj (parseClusterData input) cIdx 0
      (fun _ _ => 0) i hc (by omega)
      (by omega)
      (by rw [sumPixN_take_succ _ _ hc]; omega)
    rw [hw]
    unfold toUInt8
    omega

lemma swapFn_comp (f : Nat → Nat) (i j n : Nat) :
    swapFn f i j n = f (swapNat i j n) := by
  unfold swapFn swapNat
  split_ifs <;> rfl

lemma swapFn_other (f : Nat → Nat) (i j n : Nat) (h1 : n ≠ i) (h2 : n ≠ j) :
    swapFn f i j n = f n := by
  unfold swapFn
  rw [if_neg h1, if_neg h2]

lemma range_unique (cs : Nat → ClusterData) {c1 c2 i : Nat}
    (h1 : offsetOf cs c1 ≤ i ∧ i < offsetOf cs c1 + (cs c1).pixels.toNat)
    (h2 : offsetOf cs c2 ≤ i ∧ i < offsetOf cs c2 + (cs c2).pixels.toNat) : c1 = c2 := by
  rcases Nat.lt_trichotomy c1 c2 with h | h | h
  · exact (range_disjoint cs h ⟨h1.1, by rw [offsetOf_succ]; omega⟩
      ⟨h2.1, by rw [offsetOf_succ]; omega⟩).elim
  · exact h
  · exact (range_disjoint cs h ⟨h2.1, by rw [offsetOf_succ]; omega⟩
      ⟨h1.1, by rw [offsetOf_succ]; omega⟩).elim

lemma clusterUpdate_StateInv (t : Nat) (rng : Nat → Nat) (cIdx off k : Nat)
    (s : PortfolioState) (hinv : StateInv s) (hc : cIdx < s.numClusters)
    (hoff : off = offsetOf s.clusters cIdx) :
    StateInv (clusterUpdate t rng cIdx off k s).1 ∧
    (clusterUpdate t rng cIdx off k s).1.clusters = s.clusters ∧
    (clusterUpdate t rng cIdx off k s).1.numClusters = s.numClusters ∧
    (clusterUpdate t rng cIdx off k s).2.1 = offsetOf s.clusters (cIdx + 1) := by
  obtain ⟨hb, hinj, hgood, hcap, hgc⟩ := hinv
  unfold clusterUpdate
  dsimp only
  split_ifs with hgate hz hsw
  · exact ⟨⟨hb, hinj, hgood, hcap, hgc⟩, rfl, rfl,
      by dsimp only; rw [offsetOf_succ, hoff]⟩
  · refine ⟨⟨hb, hinj, hgood, hcap, hgc⟩, rfl, rfl, ?_⟩
    dsimp only
    rw [offsetOf_succ, ← hoff, hz]
    simp
  · -- the due cluster performs a swap of two indices of its own range
    set P1 := selectSample s.pixelClusterID (s.clusters cIdx).clusterID s.pixelIndices
      off ((s.clusters cIdx).pixels.toNat) rng k ((s.clusters cIdx).clustering.toNat)
      with hP1
    set P2 := selectSample s.pixelClusterID (s.clusters cIdx).clusterID s.pixelIndices
      off ((s.clusters cIdx).pixels.toNat) rng P1.2.1 ((s.clusters cIdx).clustering.toNat)
      with hP2
    have hpos : 0 < (s.clusters cIdx).pixels := by
      have h0 := (hgood cIdx hc).1
      omega
    have hnpos : 0 < (s.clusters cIdx).pixels.toNat := by omega
    have hm1 : off ≤ P1.1 ∧ P1.1 < off + (s.clusters cIdx).pixels.toNat := by
      rw [hP1]
      exact selectSample_mem _ _ _ _ _ _ _ _ hnpos
    have hm2 : off ≤ P2.1 ∧ P2.1 < off + (s.clusters cIdx).pixels.toNat := by
      rw [hP2]
      exact selectSample_mem _ _ _ _ _ _ _ _ hnpos
    have hr1 : offsetOf s.clusters cIdx ≤ P1.1 ∧
        P1.1 < offsetOf s.clusters cIdx + (s.clusters cIdx).pixels.toNat := by
      rw [← hoff]
      exact hm1
    have hr2 : offsetOf s.clusters cIdx ≤ P2.1 ∧
        P2.1 < offsetOf s.clusters cIdx + (s.clusters cIdx).pixels.toNat := by
      rw [← hoff]
      exact hm2
    have h104 : offsetOf s.clusters cIdx + (s.clusters cIdx).pixels.toNat ≤ 104 := by
      have hmono := offsetOf_mono s.clusters (show cIdx + 1 ≤ s.numClusters by omega)
      rw [offsetOf_succ] at hmono
      omega
    have hi1lt : P1.1 < 104 := by omega
    have hi2lt : P2.1 < 104 := by omega
    have hv1 : (s.pixelClusterID (s.pixelIndices P1.1 / 13) (s.pixelIndices P1.1 % 13) : Int) =
        (s.clusters cIdx).clusterID := hgc cIdx hc P1.1 hr1.1 hr1.2
    have hv2 : (s.pixelClusterID (s.pixelIndices P2.1 / 13) (s.pixelIndices P2.1 % 13) : Int) =
        (s.clusters cIdx).clusterID := hgc cIdx hc P2.1 hr2.1 hr2.2
    have hv : s.pixelClusterID (s.pixelIndices P2.1 / 13) (s.pixelIndices P2.1 % 13) =
        s.pixelClusterID (s.pixelIndices P1.1 / 13) (s.pixelIndices P1.1 % 13) := by
      exact_mod_cast hv2.trans hv1.symm
    rw [swapFn_left, swapFn_right _ _ _ hsw]
    have hgrid : setGrid (setGrid s.pixelClusterID
        (s.pixelIndices P2.1 / 13) (s.pixelIndices P2.1 % 13)
        (s.pixelClusterID (s.pixelIndices P1.1 / 13) (s.pixelIndices P1.1 % 13)))
        (s.pixelIndices P1.1 / 13) (s.pixelIndices P1.1 % 13)
        (s.pixelClusterID (s.pixelIndices P2.1 / 13) (s.pixelIndices P2.1 % 13)) =
        s.pixelClusterID := by
      rw [← hv, setGrid_self, hv, setGrid_self]
    rw [hgrid]
    refine ⟨⟨?_, ?_, hgood, hcap, ?_⟩, rfl, rfl,
      by dsimp only; rw [offsetOf_succ, ← hoff]⟩
    · intro n hn
      dsimp only
      rw [swapFn_comp]
      exact hb _ (swapNat_lt P1.1 P2.1 n hi1lt hi2lt hn)
    · intro a b2 ha hb2 heq
      dsimp only at heq
      rw [swapFn_comp, swapFn_comp] at heq
      have hs2 := hinj _ _ (swapNat_lt _ _ a hi1lt hi2lt ha)
        (swapNat_lt _ _ b2 hi1lt hi2lt hb2) heq
      exact swapNat_injective P1.1 P2.1 hs2
    · intro c' hc' i hlo hhi
      dsimp only at hc' hlo hhi ⊢
      by_cases he1 : i = P1.1
      · subst he1
        have hceq : c' = cIdx := range_unique s.clusters ⟨hlo, hhi⟩ hr1
        rw [swapFn_left, hceq]
        exact hv2
      · by_cases he2 : i = P2.1
        · subst he2
          have hceq : c' = cIdx := range_unique s.clusters ⟨hlo, hhi⟩ hr2
          rw [swapFn_right _ _ _ hsw, hceq]
          exact hv1
        · rw [swapFn_other _ _ _ _ he1 he2]
          exact hgc c' hc' i hlo hhi
  · refine ⟨⟨hb, hinj, hgood, hcap, hgc⟩, rfl, rfl, ?_⟩
    dsimp only
    rw [offsetOf_succ, ← hoff]

lemma updateLoop_StateInv (t : Nat) (rng : Nat → Nat) :
    ∀ rem cIdx off k s, StateInv s → cIdx + rem = s.numClusters →
      off = offsetOf s.clusters cIdx →
      StateInv (updateLoop t rng cIdx rem off k s).1 ∧
      (updateLoop t rng cIdx rem off k s).1.clusters = s.clusters ∧
      (updateLoop t rng cIdx rem off k s).1.numClusters = s.numClusters := by
  intro rem
  induction rem with
  | zero =>
    intro cIdx off k s hinv _ _
    exact ⟨hinv, rfl, rfl⟩
  | succ rem ih =>
    intro cIdx off k s hinv hnum hoff
    simp only [updateLoop]
    have hc : cIdx < s.numClusters := by omega
    obtain ⟨h1, h2, h3, h4⟩ := clusterUpdate_StateInv t rng cIdx off k s hinv hc hoff
    obtain ⟨ih1, ih2, ih3⟩ := ih (cIdx + 1) (clusterUpdate t rng cIdx off k s).2.1
      (clusterUpdate t rng cIdx off k s).2.2.1 (clusterUpdate t rng cIdx off k s).1
      h1 (by omega) (by rw [h4, h2])
    exact ⟨ih1, ih2.trans h2, ih3.trans h3⟩

lemma offsetOf_zero (cs : Nat → ClusterData) : offsetOf cs 0 = 0 := by
  simp [offsetOf]

lemma update_StateInv (t : Nat) (rng : Nat → Nat) (s : PortfolioState) (h : StateInv s) :
    StateInv (updatePortfolioPattern t rng s) := by
  unfold updatePortfolioPattern updateFull
  exact (updateLoop_StateInv t rng s.numClusters 0 0 0 s h (by omega)
    (by rw [offsetOf_zero])).1

/-- The single cluster example configuration of the spec. -/
def singleInput : List RawRecord :=
  [{ cluster_id := 1, pixels := 3, brightness := 200, clustering := 5, speed := 50,
     symbol := "X" }]

/-- Claim C3: with the externally owned ordering a permutation of the 104
    positions and a valid configuration (clusterIDs between 0 and 5, pixel
    counts summing to at most 104), immediately after setPortfolioMode with
    at least one parsed cluster and after every later updatePortfolioPattern
    call, the grid cell of the physical position stored at any ordering
    index of a cluster range holds that cluster clusterID. -/
theorem claim_C3_grid_consistency (input : List RawRecord) (s : PortfolioState)
    (hb : pixBounded s.pixelIndices) (hinj : pixInj s.pixelIndices)
    (hids : ∀ c ∈ parseClusterData input, 0 ≤ c.clusterID ∧ c.clusterID ≤ 5)
    (hsum : sumPixN (parseClusterData input) ≤ 104)
    (hne : parseClusterData input ≠ [])
    (ticks : List (Nat × (Nat → Nat))) :
    gridConsistent (ticks.foldl
      (fun st tr => updatePortfolioPattern tr.1 tr.2 st) (setPortfolioMode input s)) := by
  have hinv := setPortfolioMode_StateInv input s hb hinj hids hsum hne
  have hfold : ∀ (l : List (Nat × (Nat → Nat))) (st : PortfolioState), StateInv st →
      StateInv (l.foldl (fun st2 tr => updatePortfolioPattern tr.1 tr.2 st2) st) := by
    intro l
    induction l with
    | nil =>
      intro st h
      exact h
    | cons hd tl ih =>
      intro st h
      exact ih _ (update_StateInv hd.1 hd.2 st h)
  exact (hfold ticks _ hinv).2.2.2.2

/-- Claim C3 witness: the single cluster example applied to the identity
    ordering, followed by one update call at time 100. -/
theorem claim_C3_witness :
    gridConsistent ([((100 : Nat), (fun _ => 0 : Nat → Nat))].foldl
      (fun st tr => updatePortfolioPattern tr.1 tr.2 st)
      (setPortfolioMode singleInput initState)) :=
  claim_C3_grid_consistency singleInput initState
    (by
      intro i hi
      show i % 104 < 104
      omega)
    (by
      intro i j hi hj heq
      have h2 : i % 104 = j % 104 := heq
      omega)
    (by decide) (by decide) (by decide) [((100 : Nat), (fun _ => 0 : Nat → Nat))]

lemma clusterUpdate_frame (t : Nat) (rng : Nat → Nat) (cIdx off k : Nat)
    (s : PortfolioState) (hinv : StateInv s) (hc : cIdx < s.numClusters)
    (hoff : off = offsetOf s.clusters cIdx) :
    (∀ j, j ≠ cIdx → (clusterUpdate t rng cIdx off k s).1.lastUpdateTime j =
        s.lastUpdateTime j) ∧
    (dueAt t s cIdx → (clusterUpdate t rng cIdx off k s).1.lastUpdateTime cIdx = t) ∧
    (¬ dueAt t s cIdx → (clusterUpdate t rng cIdx off k s).1 = s) ∧
    (∀ i, i < offsetOf s.clusters cIdx ∨ offsetOf s.clusters (cIdx + 1) ≤ i →
        (clusterUpdate t rng cIdx off k s).1.pixelIndices i = s.pixelIndices i) ∧
    (∀ y x, (∀ i2, offsetOf s.clusters cIdx ≤ i2 → i2 < offsetOf s.clusters (cIdx + 1) →
          ¬ (s.pixelIndices i2 / 13 = y ∧ s.pixelIndices i2 % 13 = x)) →
        (clusterUpdate t rng cIdx off k s).1.pixelClusterID y x =
          s.pixelClusterID y x) := by
  obtain ⟨hb, hinj, hgood, hcap, hgc⟩ := hinv
  unfold clusterUpdate
  dsimp only
  split_ifs with hgate hz hsw
  · exact ⟨fun _ _ => rfl, fun hd => absurd hgate hd, fun _ => rfl,
      fun _ _ => rfl, fun _ _ _ => rfl⟩
  · exact ⟨fun j hj => Function.update_noteq hj t s.lastUpdateTime,
      fun _ => Function.update_same cIdx t s.lastUpdateTime,
      fun hnd => absurd hgate hnd, fun _ _ => rfl, fun _ _ _ => rfl⟩
  · set P1 := selectSample s.pixelClusterID (s.clusters cIdx).clusterID s.pixelIndices
      off ((s.clusters cIdx).pixels.toNat) rng k ((s.clusters cIdx).clustering.toNat)
      with hP1
    set P2 := selectSample s.pixelClusterID (s.clusters cIdx).clusterID s.pixelIndices
      off ((s.clusters cIdx).pixels.toNat) rng P1.2.1 ((s.clusters cIdx).clustering.toNat)
      with hP2
    have hpos : 0 < (s.clusters cIdx).pixels := by
      have h0 := (hgood cIdx hc).1
      omega
    have hnpos : 0 < (s.clusters cIdx).pixels.toNat := by omega
    have hm1 : off ≤ P1.1 ∧ P1.1 < off + (s.clusters cIdx).pixels.toNat := by
      rw [hP1]
      exact selectSample_mem _ _ _ _ _ _ _ _ hnpos
    have hm2 : off ≤ P2.1 ∧ P2.1 < off + (s.clusters cIdx).pixels.toNat := by
      rw [hP2]
      exact selectSample_mem _ _ _ _ _ _ _ _ hnpos
    have hs1 : offsetOf s.clusters cIdx ≤ P1.1 ∧ P1.1 < offsetOf s.clusters (cIdx + 1) := by
      rw [offsetOf_succ]
      omega
    have hs2 : offsetOf s.clusters cIdx ≤ P2.1 ∧ P2.1 < offsetOf s.clusters (cIdx + 1) := by
      rw [offsetOf_succ]
      omega
    refine ⟨fun j hj => Function.update_noteq hj t s.lastUpdateTime,
      fun _ => Function.update_same cIdx t s.lastUpdateTime,
      fun hnd => absurd hgate hnd, ?_, ?_⟩
    · intro i hi
      dsimp only
      have hne1 : i ≠ P1.1 := by omega
      have hne2 : i ≠ P2.1 := by omega
      exact swapFn_other _ _ _ _ hne1 hne2
    · intro y x hcells
      dsimp only
      rw [swapFn_left, swapFn_right _ _ _ hsw]
      unfold setGrid
      rw [if_neg, if_neg]
      · intro hcond
        exact hcells P2.1 hs2.1 hs2.2 ⟨hcond.1.symm, hcond.2.symm⟩
      · intro hcond
        exact hcells P1.1 hs1.1 hs1.2 ⟨hcond.1.symm, hcond.2.symm⟩
  · exact ⟨fun j hj => Function.update_noteq hj t s.lastUpdateTime,
      fun _ => Function.update_same cIdx t s.lastUpdateTime,
      fun hnd => absurd hgate hnd, fun _ _ => rfl, fun _ _ _ => rfl⟩

lemma updateLoop_frame (t : Nat) (rng : Nat → Nat) :
    ∀ rem cIdx0 off k s, StateInv s → cIdx0 + rem = s.numClusters →
      off = offsetOf s.clusters cIdx0 →
      (∀ j2, j2 < cIdx0 →
        (updateLoop t rng cIdx0 rem off k s).1.lastUpdateTime j2 =
          s.lastUpdateTime j2) ∧
      (∀ i, i < offsetOf s.clusters cIdx0 →
        (updateLoop t rng cIdx0 rem off k s).1.pixelIndices i = s.pixelIndices i) ∧
      (∀ y x, (∀ i2, offsetOf s.clusters cIdx0 ≤ i2 →
            i2 < offsetOf s.clusters s.numClusters →
            ¬ (s.pixelIndices i2 / 13 = y ∧ s.pixelIndices i2 % 13 = x)) →
        (updateLoop t rng cIdx0 rem off k s).1.pixelClusterID y x =
          s.pixelClusterID y x) ∧
      (∀ j, cIdx0 ≤ j → j < s.numClusters →
        (dueAt t s j → (updateLoop t rng cIdx0 rem off k s).1.lastUpdateTime j = t) ∧
        (¬ dueAt t s j →
          (updateLoop t rng cIdx0 rem off k s).1.lastUpdateTime j =
            s.lastUpdateTime j ∧
          ∀ i, offsetOf s.clusters j ≤ i → i < offsetOf s.clusters (j + 1) →
            (updateLoop t rng cIdx0 rem off k s).1.pixelIndices i = s.pixelIndices i ∧
            (updateLoop t rng cIdx0 rem off k s).1.pixelClusterID
                (s.pixelIndices i / 13) (s.pixelIndices i % 13) =
              s.pixelClusterID (s.pixelIndices i / 13) (s.pixelIndices i % 13))) := by
  intro rem
  induction rem with
  | zero =>
    intro cIdx0 off k s hinv hnum hoff
    exact ⟨fun _ _ => rfl, fun _ _ => rfl, fun _ _ _ => rfl,
      fun j hj1 hj2 => absurd hj2 (by omega)⟩
  | succ rem ih =>
    intro cIdx0 off k s hinv hnum hoff
    obtain ⟨hb, hinj, hgood, hcap, hgc⟩ := hinv
    simp only [updateLoop]
    have hc : cIdx0 < s.numClusters := by omega
    obtain ⟨hI, hCl, hNum, hOff⟩ :=
      clusterUpdate_StateInv t rng cIdx0 off k s ⟨hb, hinj, hgood, hcap, hgc⟩ hc hoff
    obtain ⟨fLast, fDue, fId, fPix, fGrid⟩ :=
      clusterUpdate_frame t rng cIdx0 off k s ⟨hb, hinj, hgood, hcap, hgc⟩ hc hoff
    obtain ⟨g1, g2, g3, g4⟩ := ih (cIdx0 + 1) (clusterUpdate t rng cIdx0 off k s).2.1
      (clusterUpdate t rng cIdx0 off k s).2.2.1 (clusterUpdate t rng cIdx0 off k s).1
      hI (by omega) (by rw [hOff, hCl])
    have hmono1 : offsetOf s.clusters cIdx0 ≤ offsetOf s.clusters (cIdx0 + 1) :=
      offsetOf_mono s.clusters (Nat.le_succ cIdx0)
    have hmonoN : offsetOf s.clusters (cIdx0 + 1) ≤ offsetOf s.clusters s.numClusters :=
      offsetOf_mono s.clusters (by omega)
    refine ⟨?_, ?_, ?_, ?_⟩
    · intro j2 hj2
      rw [g1 j2 (by omega)]
      exact fLast j2 (by omega)
    · intro i hi
      rw [g2 i (by rw [hCl]; omega)]
      exact fPix i (Or.inl hi)
    · intro y x hcells
      have hcells2 : ∀ i2, offsetOf (clusterUpdate t rng cIdx0 off k s).1.clusters
            (cIdx0 + 1) ≤ i2 →
          i2 < offsetOf (clusterUpdate t rng cIdx0 off k s).1.clusters
            (clusterUpdate t rng cIdx0 off k s).1.numClusters →
          ¬ ((clusterUpdate t rng cIdx0 off k s).1.pixelIndices i2 / 13 = y ∧
             (clusterUpdate t rng cIdx0 off k s).1.pixelIndices i2 % 13 = x) := by
        intro i2 hlo hhi
        rw [hCl] at hlo hhi
        rw [hNum] at hhi
        rw [fPix i2 (Or.inr hlo)]
        exact hcells i2 (le_trans hmono1 hlo) hhi
      rw [g3 y x hcells2]
      exact fGrid y x (fun i2 h1 h2 => hcells i2 h1 (by omega))
    · intro j hj1 hj2
      by_cases hjc : j = cIdx0
      · subst hjc
        refine ⟨?_, ?_⟩
        · intro hd
          rw [g1 j (by omega)]
          exact fDue hd
        · intro hnd
          have hid := fId hnd
          refine ⟨?_, ?_⟩
          · rw [g1 j (by omega), hid]
          · intro i hlo hhi
            have hmj : offsetOf s.clusters (j + 1) ≤ offsetOf s.clusters s.numClusters :=
              offsetOf_mono s.clusters (by omega)
            refine ⟨?_, ?_⟩
            · rw [g2 i (by rw [hCl]; omega), hid]
            · have hyp : ∀ i2, offsetOf (clusterUpdate t rng j off k s).1.clusters
                    (j + 1) ≤ i2 →
                  i2 < offsetOf (clusterUpdate t rng j off k s).1.clusters
                    (clusterUpdate t rng j off k s).1.numClusters →
                  ¬ ((clusterUpdate t rng j off k s).1.pixelIndices i2 / 13 =
                        s.pixelIndices i / 13 ∧
                     (clusterUpdate t rng j off k s).1.pixelIndices i2 % 13 =
                        s.pixelIndices i % 13) := by
                rw [hid]
                intro i2 h1 h2 hcell
                have hI2lt : i2 < 104 := by omega
                have hIlt : i < 104 := by omega
                have heqp : s.pixelIndices i2 = s.pixelIndices i :=
                  (cell_eq_iff _ _).mp hcell
                have : i2 = i := hinj i2 i hI2lt hIlt heqp
                omega
              rw [g3 _ _ hyp, hid]
      · have hj3 : cIdx0 + 1 ≤ j := by omega
        have hlastR : (clusterUpdate t rng cIdx0 off k s).1.lastUpdateTime j =
            s.lastUpdateTime j := fLast j (by omega)
        have hdueq : dueAt t (clusterUpdate t rng cIdx0 off k s).1 j ↔ dueAt t s j := by
          unfold dueAt
          rw [hlastR, hCl]
        obtain ⟨g4a, g4b⟩ := g4 j hj3 (by rw [hNum]; omega)
        refine ⟨?_, ?_⟩
        · intro hd
          exact g4a (hdueq.mpr hd)
        · intro hnd
          obtain ⟨g4b1, g4b2⟩ := g4b (fun h => hnd (hdueq.mp h))
          refine ⟨by rw [g4b1, hlastR], ?_⟩
          intro i hlo hhi
          have hioff : offsetOf s.clusters (cIdx0 + 1) ≤ i :=
            le_trans (offsetOf_mono s.clusters hj3) hlo
          have hpixeq : (clusterUpdate t rng cIdx0 off k s).1.pixelIndices i =
              s.pixelIndices i := fPix i (Or.inr hioff)
          obtain ⟨hp, hg⟩ := g4b2 i (by rw [hCl]; exact hlo) (by rw [hCl]; exact hhi)
          refine ⟨by rw [hp, hpixeq], ?_⟩
          rw [hpixeq] at hg
          rw [hg]
          apply fGrid
          intro i2 h1 h2 hcell
          have hI2lt : i2 < 104 := by omega
          have hIlt : i < 104 := by
            have hmj := offsetOf_mono s.clusters (show j + 1 ≤ s.numClusters by omega)
            omega
          have heqp : s.pixelIndices i2 = s.pixelIndices i := (cell_eq_iff _ _).mp hcell
          have : i2 = i := hinj i2 i hI2lt hIlt heqp
          omega

/-- Claim C6: during an updatePortfolioPattern call at time t, an active
    cluster whose animation interval has not elapsed is skipped entirely:
    its timer, its logical range of the pixel ordering and the grid cells of
    its positions are all unchanged; every due cluster has its timer set to
    t; and eligibility depends only on the cluster own timer and speed, so
    one cluster being skipped does not affect another cluster eligibility. -/
theorem claim_C6_rate_gate (t : Nat) (rng : Nat → Nat) (s : PortfolioState)
    (hinv : StateInv s) (cIdx : Nat) (hc : cIdx < s.numClusters) :
    (¬ dueAt t s cIdx →
      (updatePortfolioPattern t rng s).lastUpdateTime cIdx = s.lastUpdateTime cIdx ∧
      ∀ i, offsetOf s.clusters cIdx ≤ i →
        i < offsetOf s.clusters cIdx + (s.clusters cIdx).pixels.toNat →
        (updatePortfolioPattern t rng s).pixelIndices i = s.pixelIndices i ∧
        (updatePortfolioPattern t rng s).pixelClusterID
            (s.pixelIndices i / 13) (s.pixelIndices i % 13) =
          s.pixelClusterID (s.pixelIndices i / 13) (s.pixelIndices i % 13)) ∧
    (dueAt t s cIdx → (updatePortfolioPattern t rng s).lastUpdateTime cIdx = t) ∧
    (∀ s2 : PortfolioState, s2.lastUpdateTime cIdx = s.lastUpdateTime cIdx →
      s2.clusters cIdx = s.clusters cIdx → (dueAt t s2 cIdx ↔ dueAt t s cIdx)) := by
  obtain ⟨_, _, _, g4⟩ := updateLoop_frame t rng s.numClusters 0 0 0 s hinv (by omega)
    (by rw [offsetOf_zero])
  obtain ⟨g4a, g4b⟩ := g4 cIdx (by omega) hc
  refine ⟨?_, ?_, ?_⟩
  · intro hnd
    obtain ⟨h1, h2⟩ := g4b hnd
    refine ⟨?_, ?_⟩
    · unfold updatePortfolioPattern updateFull
      exact h1
    · intro i hlo hhi
      have hhi2 : i < offsetOf s.clusters (cIdx + 1) := by
        rw [offsetOf_succ]
        omega
      have h3 := h2 i hlo hhi2
      unfold updatePortfolioPattern updateFull
      exact h3
  · intro hd
    unfold updatePortfolioPattern updateFull
    exact g4a hd
  · intro s2 hl hcl
    unfold dueAt
    rw [hl, hcl]

/-- Claim C6 witness at the single cluster configuration and time 100. -/
theorem claim_C6_witness :
    (¬ dueAt 100 (setPortfolioMode singleInput initState) 0 →
      (updatePortfolioPattern 100 (fun _ => 0)
          (setPortfolioMode singleInput initState)).lastUpdateTime 0 =
        (setPortfolioMode singleInput initState).lastUpdateTime 0 ∧
      ∀ i, offsetOf (setPortfolioMode singleInput initState).clusters 0 ≤ i →
        i < offsetOf (setPortfolioMode singleInput initState).clusters 0 +
          ((setPortfolioMode singleInput initState).clusters 0).pixels.toNat →
        (updatePortfolioPattern 100 (fun _ => 0)
            (setPortfolioMode singleInput initState)).pixelIndices i =
          (setPortfolioMode singleInput initState).pixelIndices i ∧
        (updatePortfolioPattern 100 (fun _ => 0)
            (setPortfolioMode singleInput initState)).pixelClusterID
            ((setPortfolioMode singleInput initState).pixelIndices i / 13)
            ((setPortfolioMode singleInput initState).pixelIndices i % 13) =
          (setPortfolioMode singleInput initState).pixelClusterID
            ((setPortfolioMode singleInput initState).pixelIndices i / 13)
            ((setPortfolioMode singleInput initState).pixelIndices i % 13)) ∧
    (dueAt 100 (setPortfolioMode singleInput initState) 0 →
      (updatePortfolioPattern 100 (fun _ => 0)
          (setPortfolioMode singleInput initState)).lastUpdateTime 0 = 100) ∧
    (∀ s2 : PortfolioState,
      s2.lastUpdateTime 0 = (setPortfolioMode singleInput initState).lastUpdateTime 0 →
      s2.clusters 0 = (setPortfolioMode singleInput initState).clusters 0 →
      (dueAt 100 s2 0 ↔ dueAt 100 (setPortfolioMode singleInput initState) 0)) :=
  claim_C6_rate_gate 100 (fun _ => 0) (setPortfolioMode singleInput initState)
    (setPortfolioMode_StateInv singleInput initState
      (by
        intro i hi
        show i % 104 < 104
        omega)
      (by
        intro i j hi hj heq
        have h2 : i % 104 = j % 104 := heq
        omega)
      (by decide) (by decide) (by decide))
    0 (by decide)

end Sentinel
